import Mathlib

/-!
Shallow embedding of the quiz-creation state module (`useQuizCreation`,
src/unnamed/part_007) of the Kolibri coach front-end, together with proofs
about the claims on its specification.

JavaScript state is embedded as explicit state passing over the record
`QState`; every operation returns the (possibly partially mutated) state
together with an optional thrown error, mirroring the fact that a caller
catching the exception observes all mutations made before the throw.
Fields that JavaScript may leave `undefined` are embedded as `Option`.
-/

namespace QuizCreation

/-- A question of a quiz.  Modelled from the spec: `QuizQuestion` is declared
in `quizCreationSpecs.js`, which is not among the sources; the spec describes
it as a reference into an exercise through the composite key
`exercise_id:assessment_item_id` called `item`. -/
structure QuizQuestion where
  exercise_id : String
  question_id : String
  item : String
deriving DecidableEq, Repr

/-- An exercise as cached in `_exerciseMap`.  Modelled from the spec: the
exercise metadata type is fetched from the REST layer and is not among the
sources; part_007 only reads `exercise.id` and
`exercise.assessmentmetadata.assessment_item_ids` (line 447), which we embed
as the flattened field `assessment_item_ids`. -/
structure Exercise where
  id : String
  assessment_item_ids : List String
deriving DecidableEq, Repr

/-- A quiz section.  Modelled from the spec: `QuizSection` is declared in
`quizCreationSpecs.js`, which is not among the sources; the spec describes it
as title, list of QuizQuestion, resource pool, and part_007 additionally
reads `section_id` (deleted on save, line 296). -/
structure QuizSection where
  section_id : String
  section_title : String
  description : String
  learners_see_fixed_order : Bool
  questions : List QuizQuestion
deriving DecidableEq, Repr

/-- The quiz aggregate.  Modelled from the spec: `Quiz` is declared in
`quizCreationSpecs.js`, which is not among the sources; the fields are the
ones part_007 reads: `question_sources`, `id`, and the fields listed in
`fieldsToSave` (part_007 lines 23-33). -/
structure Quiz where
  id : String
  title : String
  assignments : List String
  learner_ids : List String
  collection : String
  learners_see_fixed_order : Bool
  instant_report_visibility : Bool
  draft : Bool
  active : Bool
  archive : Bool
  question_sources : List QuizSection
deriving DecidableEq, Repr

/-- A thrown JavaScript error: part_007 throws both `TypeError` (for invalid
arguments) and plain `Error` (section removal, auto-replace exhaustion). -/
inductive JsError where
  | typeError (msg : String)
  | jsError (msg : String)
deriving DecidableEq, Repr

/-- Whether a thrown error is a `TypeError`. -/
def JsError.isTypeError : JsError → Bool
  | .typeError _ => true
  | .jsError _ => false

/-- The local state of the composable (part_007 lines 44-67): the quiz ref,
the `quizHasChanged` flag, the exercise cache `_exerciseMap` and the
selected question items `_selectedQuestionIds`.  The exercise cache is a
JavaScript object keyed by exercise id; we embed it as an association list
where insertion conses the new binding, so that `List.lookup` returns the
most recent binding exactly as property assignment overwrites it. -/
structure QState where
  quiz : Quiz
  quizHasChanged : Bool
  exerciseMap : List (String × Exercise)
  selectedQuestionIds : List String
deriving DecidableEq, Repr

/-- `_exerciseMap[exercise.id] = exercise` (part_007 lines 112 and 265). -/
def mapInsert (m : List (String × Exercise)) (e : Exercise) :
    List (String × Exercise) :=
  (e.id, e) :: m

/-- The `for (const exercise of pool) _exerciseMap[exercise.id] = exercise`
loops of part_007 (lines 111-113 and 264-266). -/
def mapInsertAll (m : List (String × Exercise)) (pool : List Exercise) :
    List (String × Exercise) :=
  pool.foldl mapInsert m

/-- Modelled from the spec: `MAX_QUESTIONS_PER_QUIZ_SECTION` is imported from
`kolibri/constants`, which is not among the sources; the spec only says that
section question counts are bounded by a fixed maximum.  The concrete value
does not matter to any claim; we fix the upstream value. -/
def MAX_QUESTIONS_PER_QUIZ_SECTION : Nat := 50

/-- Modelled from the spec: `validateObject(q, QuizQuestion)` comes from
`kolibri/utils/objectSpecs`, which is not among the sources.  It checks that
the value is an object of the declared shape; in this typed embedding every
present `QuizQuestion` record is structurally valid and only a missing
(`undefined`) array entry, as produced by `_replaceQuestions` running out of
replacements, is invalid. -/
def validQuizQuestion : Option QuizQuestion → Bool :=
  Option.isSome

/-- The partial section update object passed to `updateSection`
(part_007 line 85): `none` fields are absent from the JavaScript object.
Question arrays flowing into `updateSection` may contain `undefined`
entries (see `_replaceQuestions`), hence `Option QuizQuestion`. -/
structure SectionUpdates where
  section_title : Option String := none
  description : Option String := none
  learners_see_fixed_order : Option Bool := none
  questions : Option (List (Option QuizQuestion)) := none
  resourcePool : Option (List Exercise) := none
deriving DecidableEq, Repr

/-- `get(quiz).question_sources` (part_007 line 361). -/
def allSections (st : QState) : List QuizSection :=
  st.quiz.question_sources

/-- `allQuestionsInQuiz` (part_007 lines 401-406): the concatenation of all
sections' questions. -/
def allQuestionsInQuiz (st : QState) : List QuizQuestion :=
  (allSections st).foldl (fun acc s => acc ++ s.questions) []

/-- The item keys of all questions in the quiz
(`get(allQuestionsInQuiz).map(q => q.item)`, part_007 line 150). -/
def allQuizItems (st : QState) : List String :=
  (allQuestionsInQuiz st).map (·.item)

/-- The `if (questions)` validation block of `updateSection` (part_007
lines 94-106): an oversized array throws first, then an array containing an
invalid (`undefined`) entry throws; the `Array.isArray` check cannot fail in
the typed embedding. -/
def questionsCheck (u : SectionUpdates) : Option JsError :=
  match u.questions with
  | none => none
  | some qs =>
    if qs.length > MAX_QUESTIONS_PER_QUIZ_SECTION then
      some (.typeError "Questions array must not exceed the maximum")
    else if qs.any (fun q => !(validQuizQuestion q)) then
      some (.typeError "Questions must be valid QuizQuestion objects")
    else none

/-- The `if (resourcePool)` block of `updateSection` (part_007
lines 108-115): merges the pool into the exercise cache. -/
def applyResourcePool (st : QState) (u : SectionUpdates) : QState :=
  match u.resourcePool with
  | none => st
  | some pool => { st with exerciseMap := mapInsertAll st.exerciseMap pool }

/-- The `{ ...targetSection, ...updates }` merge of `updateSection` (part_007
line 124): absent fields keep the target's values; a present questions array
is stored (its entries are all valid at this point, so the `filterMap id`
strips only the `Option` wrapper). -/
def mergeSection (target : QuizSection) (u : SectionUpdates) : QuizSection :=
  { section_id := target.section_id
    section_title := u.section_title.getD target.section_title
    description := u.description.getD target.description
    learners_see_fixed_order :=
      u.learners_see_fixed_order.getD target.learners_see_fixed_order
    questions :=
      match u.questions with
      | none => target.questions
      | some qs => qs.filterMap id }

/-- `updateSection` (part_007 lines 85-128).  Mirrors the source order:
`quizHasChanged` is set first, then the target section lookup may throw,
then the questions checks may throw, then the resource pool is merged into
the exercise cache, and finally the section list is rebuilt with
`slice(0, i) ++ [merged] ++ slice(i + 1)`. -/
def updateSection (st : QState) (sectionIndex : Nat) (u : SectionUpdates) :
    QState × Option JsError :=
  let st1 := { st with quizHasChanged := true }
  match (allSections st1)[sectionIndex]? with
  | none => (st1, some (.typeError "Section not found; cannot be updated."))
  | some target =>
    match questionsCheck u with
    | some e => (st1, some e)
    | none =>
      let st2 := applyResourcePool st1 u
      let newSections :=
        (allSections st2).take sectionIndex ++ [mergeSection target u] ++
          (allSections st2).drop (sectionIndex + 1)
      ({ st2 with quiz := { st2.quiz with question_sources := newSections } }, none)

/-- The partial quiz update object passed to `updateQuiz` (part_007
line 322); only the fields actually passed somewhere in part_007 are
modelled (`question_sources` by `addSection`/`removeSection`, `id` by the
save success handler). -/
structure QuizUpdates where
  id : Option String := none
  question_sources : Option (List QuizSection) := none
deriving DecidableEq, Repr

/-- `updateQuiz` (part_007 lines 322-328): sets `quizHasChanged`, validates
the updates (typed update records are always structurally valid, see
`validQuizQuestion`), and merges them into the quiz. -/
def updateQuiz (st : QState) (u : QuizUpdates) : QState × Option JsError :=
  let st1 := { st with quizHasChanged := true }
  ({ st1 with
      quiz :=
        { st1.quiz with
          id := u.id.getD st1.quiz.id
          question_sources := u.question_sources.getD st1.quiz.question_sources } },
    none)

/-- Modelled from the spec: `objectWithDefaults({}, QuizSection)` from
`kolibri/utils/objectSpecs` is not among the sources; it fills a fresh
section with the declared defaults (no questions yet). -/
def defaultSection : QuizSection :=
  { section_id := ""
    section_title := ""
    description := ""
    learners_see_fixed_order := false
    questions := [] }

/-- Modelled from the spec: `objectWithDefaults({collection, assignments},
Quiz)` from `kolibri/utils/objectSpecs` is not among the sources; it fills
the remaining quiz fields with the declared defaults, with no sections. -/
def defaultQuiz (collection : String) (assignments : List String) : Quiz :=
  { id := ""
    title := ""
    assignments := assignments
    learner_ids := []
    collection := collection
    learners_see_fixed_order := false
    instant_report_visibility := true
    draft := true
    active := false
    archive := false
    question_sources := [] }

/-- `addSection` (part_007 lines 218-222): appends a fresh default section
through `updateQuiz`. -/
def addSection (st : QState) : QState × Option JsError :=
  updateQuiz st { question_sources := some (st.quiz.question_sources ++ [defaultSection]) }

/-- `removeSection` (part_007 lines 227-239): throws when no section exists
at the index, otherwise removes it with `slice(0, i).concat(slice(i + 1))`
and, when no section remains, immediately appends a fresh default one. -/
def removeSection (st : QState) (sectionIndex : Nat) : QState × Option JsError :=
  match (allSections st)[sectionIndex]? with
  | none => (st, some (.jsError "Section not found; cannot be removed."))
  | some _ =>
    let updatedSections :=
      (allSections st).take sectionIndex ++ (allSections st).drop (sectionIndex + 1)
    let st1 := (updateQuiz st { question_sources := some updatedSections }).1
    if (allSections st1).length = 0 then addSection st1 else (st1, none)

/-- The `baseQuestions.map` loop of `_replaceQuestions` (part_007
lines 172-177): a matched question consumes the next replacement via
`replacements.shift()`, which yields `undefined` (here `none`) once the
replacements run out; an unmatched question is kept in place. -/
def replaceGo (toReplace : List String) :
    List QuizQuestion → List QuizQuestion → List (Option QuizQuestion)
  | [], _ => []
  | q :: rest, reps =>
    if toReplace.contains q.item then
      match reps with
      | [] => none :: replaceGo toReplace rest []
      | r :: rs => some r :: replaceGo toReplace rest rs
    else some q :: replaceGo toReplace rest reps

/-- `_replaceQuestions` (part_007 lines 166-179): throws a `TypeError` when
the item list and the replacement list differ in length, otherwise maps over
the base questions replacing matched ones. -/
def _replaceQuestions (baseQuestions : List QuizQuestion)
    (questionItemsToReplace : List String) (replacements : List QuizQuestion) :
    Except JsError (List (Option QuizQuestion)) :=
  if questionItemsToReplace.length ≠ replacements.length then
    .error (.typeError
      "The number of question items to replace must match the number of replacements")
  else
    .ok (replaceGo questionItemsToReplace baseQuestions replacements)

/-- `addQuestionsToSection` (part_007 lines 188-214): checks the section and
the questions array, filters out questions already in the target section,
then either replaces the requested items or appends, delegating to
`updateSection`. -/
def addQuestionsToSection (st : QState) (sectionIndex : Nat)
    (questions : Option (List QuizQuestion)) (resources : Option (List Exercise))
    (questionItemsToReplace : Option (List String)) : QState × Option JsError :=
  match (allSections st)[sectionIndex]? with
  | none => (st, some (.typeError "Section not found; cannot be updated."))
  | some target =>
    match questions with
    | none => (st, some (.typeError "Questions must be a non-empty array of questions"))
    | some [] => (st, some (.typeError "Questions must be a non-empty array of questions"))
    | some qs =>
      let newQuestions :=
        qs.filter (fun q => !((target.questions.map (·.item)).contains q.item))
      let replaceRes : Except JsError (List (Option QuizQuestion)) :=
        match questionItemsToReplace with
        | some its =>
          if its.length ≠ 0 then _replaceQuestions target.questions its newQuestions
          else .ok ((target.questions ++ newQuestions).map some)
        | none => .ok ((target.questions ++ newQuestions).map some)
      match replaceRes with
      | .error e => (st, some e)
      | .ok questionsToAdd =>
        updateSection st sectionIndex
          { questions := some questionsToAdd, resourcePool := resources }

/-- Modelled from the spec: `exerciseToQuestionArray` from
`../utils/selectQuestions.js` is not among the sources.  Per the spec, a
QuizQuestion references an assessment item of an exercise through the
composite key `exercise_id:assessment_item_id` called `item`; the function
turns an exercise into the array of its questions, one per assessment item,
in the original order. -/
def exerciseToQuestionArray (e : Exercise) : List QuizQuestion :=
  e.assessment_item_ids.map fun aid =>
    { exercise_id := e.id, question_id := aid, item := e.id ++ ":" ++ aid }

/-- Modelled from the spec: `selectQuestions` from
`../utils/selectQuestions.js` is not among the sources.  The spec describes
it as a small randomized sampling routine with exclusion filtering that
throws when N questions are requested from a pool with fewer than N
available (not excluded) questions.  The seed-driven randomization is
embedded as an explicit `shuffle` parameter. -/
def selectQuestions (shuffle : List QuizQuestion → List QuizQuestion)
    (questionCount : Nat) (pool : List Exercise) (excluded : List String) :
    Except JsError (List QuizQuestion) :=
  let available :=
    (pool.flatMap exerciseToQuestionArray).filter fun q => !(excluded.contains q.item)
  if available.length < questionCount then
    .error (.jsError "Not enough questions to select from")
  else
    .ok ((shuffle available).take questionCount)

/-- `addQuestionsToSectionFromResources` (part_007 lines 130-156): checks the
section, the resource pool and the question count, selects new questions
excluding every item already in the quiz, appends them to the target
section's questions and delegates to `updateSection`.  The question count is
a JavaScript number, embedded as `Int` so that the `< 1` check is faithful. -/
def addQuestionsToSectionFromResources
    (shuffle : List QuizQuestion → List QuizQuestion) (st : QState)
    (sectionIndex : Nat) (resourcePool : Option (List Exercise))
    (questionCount : Int) : QState × Option JsError :=
  match (allSections st)[sectionIndex]? with
  | none => (st, some (.typeError "Section not found; cannot be updated."))
  | some target =>
    match resourcePool with
    | none => (st, some (.typeError "Resource pool must be a non-empty array of resources"))
    | some [] => (st, some (.typeError "Resource pool must be a non-empty array of resources"))
    | some pool =>
      if questionCount < 1 then
        (st, some (.typeError "Question count must be a positive integer"))
      else
        match selectQuestions shuffle questionCount.toNat pool (allQuizItems st) with
        | .error e => (st, some e)
        | .ok newQuestions =>
          updateSection st sectionIndex
            { questions := some ((target.questions ++ newQuestions).map some)
              resourcePool := some pool }

/-- The `quizId === 'new'` branch of `initializeQuiz` (part_007
lines 255-259, 272): resets the quiz to a default one for the collection,
adds a section and clears `quizHasChanged`.  The exercise cache and the
selection, being module-level state, persist. -/
def initializeQuizNew (st : QState) (collection : String) : QState :=
  let st1 := { st with quiz := defaultQuiz collection [collection] }
  let st2 := (addSection st1).1
  { st2 with quizHasChanged := false }

/-- The existing-quiz branch of `initializeQuiz` (part_007 lines 260-272):
the fetched exam and its exercises are external inputs; the exercises are
merged into the cache, the quiz is installed, a section is added when it has
none, and `quizHasChanged` is cleared. -/
def initializeQuizExisting (st : QState) (fetchedQuiz : Quiz)
    (exercises : List Exercise) : QState :=
  let st1 :=
    { st with
      exerciseMap := mapInsertAll st.exerciseMap exercises
      quiz := fetchedQuiz }
  let st2 := if (allSections st1).length = 0 then (addSection st1).1 else st1
  { st2 with quizHasChanged := false }

/-- A question as serialized for a draft save: `delete questionToSave.item`
(part_007 line 299) removes the item key. -/
structure SavedQuestion where
  exercise_id : String
  question_id : String
deriving DecidableEq, Repr

/-- A section as serialized for a draft save: `delete sectionToSave.section_id`
(part_007 line 296) removes the section id. -/
structure SavedSection where
  section_title : String
  description : String
  learners_see_fixed_order : Bool
  questions : List SavedQuestion
deriving DecidableEq, Repr

/-- `delete questionToSave.item` (part_007 lines 297-301). -/
def stripQuestion (q : QuizQuestion) : SavedQuestion :=
  { exercise_id := q.exercise_id, question_id := q.question_id }

/-- The per-section mapping of `saveQuiz` for drafts (part_007
lines 294-303). -/
def stripSection (s : QuizSection) : SavedSection :=
  { section_title := s.section_title
    description := s.description
    learners_see_fixed_order := s.learners_see_fixed_order
    questions := s.questions.map stripQuestion }

/-- The `finalQuiz` payload built by `saveQuiz` (part_007 lines 287-305):
exactly the fields of `fieldsToSave`, plus `question_sources` only when the
quiz is a draft. -/
structure SaveData where
  title : String
  assignments : List String
  learner_ids : List String
  collection : String
  learners_see_fixed_order : Bool
  instant_report_visibility : Bool
  draft : Bool
  active : Bool
  archive : Bool
  question_sources : Option (List SavedSection)
deriving DecidableEq, Repr

/-- The single REST call `ExamResource.saveModel({id, data})` (part_007
line 307). -/
structure SaveRequest where
  id : String
  data : SaveData
deriving DecidableEq, Repr

/-- The synchronous part of `saveQuiz` (part_007 lines 278-307): when the
quiz fails validation the promise is rejected and no request is issued,
otherwise the payload is assembled from `fieldsToSave` (with stripped
question sources for drafts) and exactly one save request is produced.  The
full-quiz validator comes from `quizCreationSpecs.js`, which is not among
the sources, so it is an explicit parameter. -/
def saveQuiz (validQ : Quiz → Bool) (st : QState) :
    QState × Except String SaveRequest :=
  if !(validQ st.quiz) then
    (st, .error "Quiz is not valid")
  else
    let quizData := st.quiz
    let data : SaveData :=
      { title := quizData.title
        assignments := quizData.assignments
        learner_ids := quizData.learner_ids
        collection := quizData.collection
        learners_see_fixed_order := quizData.learners_see_fixed_order
        instant_report_visibility := quizData.instant_report_visibility
        draft := quizData.draft
        active := quizData.active
        archive := quizData.archive
        question_sources :=
          if quizData.draft then some ((allSections st).map stripSection) else none }
    (st, .ok { id := quizData.id, data := data })

/-- The `.then` success handler of `saveQuiz` (part_007 lines 307-314): when
the server id differs, `updateQuiz({id})` installs it, and `quizHasChanged`
is cleared. -/
def saveQuizSuccess (st : QState) (examId : String) : QState :=
  let st1 := if st.quiz.id ≠ examId then (updateQuiz st { id := some examId }).1 else st
  { st1 with quizHasChanged := false }

/-- `addQuestionsToSelection` (part_007 lines 337-339). -/
def addQuestionsToSelection (st : QState) (ids : List String) : QState :=
  { st with selectedQuestionIds := (st.selectedQuestionIds ++ ids).dedup }

/-- `removeQuestionsFromSelection` (part_007 lines 344-349). -/
def removeQuestionsFromSelection (st : QState) (ids : List String) : QState :=
  { st with
    selectedQuestionIds := st.selectedQuestionIds.filter fun i => !(ids.contains i) }

/-- `clearSelectedQuestions` (part_007 lines 351-353). -/
def clearSelectedQuestions (st : QState) : QState :=
  { st with selectedQuestionIds := [] }

/-- `activeQuestions` (part_007 line 373): the active section's questions,
or `[]` when there is no such section. -/
def activeQuestions (st : QState) (activeIndex : Nat) : List QuizQuestion :=
  match (allSections st)[activeIndex]? with
  | none => []
  | some sec => sec.questions

/-- `deleteActiveSelectedQuestions` (part_007 lines 415-425): destructuring
an absent active section throws; otherwise the selected questions are
filtered out of the active section through `updateSection` and, when that
succeeds, the selection is cleared. -/
def deleteActiveSelectedQuestions (st : QState) (activeIndex : Nat) :
    QState × Option JsError :=
  match (allSections st)[activeIndex]? with
  | none => (st, some (.typeError "Cannot destructure an undefined section"))
  | some sec =>
    let questions := sec.questions.filter fun q => !(st.selectedQuestionIds.contains q.item)
    match updateSection st activeIndex { questions := some (questions.map some) } with
    | (st1, some e) => (st1, some e)
    | (st1, none) => ({ st1 with selectedQuestionIds := [] }, none)

/-- Helper for `uniqList`: skips elements already seen. -/
def uniqAux (seen : List String) : List String → List String
  | [] => []
  | a :: l => if seen.contains a then uniqAux seen l else a :: uniqAux (a :: seen) l

/-- lodash `uniq`: deduplication keeping the first occurrence of each
element (used at part_007 line 468). -/
def uniqList (l : List String) : List String := uniqAux [] l

/-- The keys of `activeResourceMap` (part_007 lines 377-385): the exercise
ids of the active section's questions, first occurrence first. -/
def activeResourceIds (st : QState) (activeIndex : Nat) : List String :=
  uniqList ((activeQuestions st activeIndex).map (·.exercise_id))

/-- `activeResourceMap` (part_007 lines 377-385): each active exercise id
mapped to its cache entry; an id absent from `_exerciseMap` is mapped to
`undefined` (here `none`). -/
def activeResourceMap (st : QState) (activeIndex : Nat) :
    List (String × Option Exercise) :=
  (activeResourceIds st activeIndex).map fun i => (i, st.exerciseMap.lookup i)

/-- The per-exercise body of `activeExercisesUnusedQuestionsMap` (part_007
lines 447-450): the composite items of the exercise, in order, minus those
already used anywhere in the quiz. -/
def unusedQuestionItems (st : QState) (e : Exercise) : List String :=
  (e.assessment_item_ids.map fun aid => e.id ++ ":" ++ aid).filter fun qid =>
    !((allQuizItems st).contains qid)

/-- `activeExercisesUnusedQuestionsMap` (part_007 lines 444-453): evaluating
the computed property walks every value of `activeResourceMap`; an
`undefined` value (uncached exercise) makes the property access
`exercise.assessmentmetadata` throw a `TypeError`. -/
def activeExercisesUnusedQuestionsMap (st : QState) (activeIndex : Nat) :
    Except JsError (List (String × List String)) :=
  go (activeResourceMap st activeIndex)
where
  go : List (String × Option Exercise) → Except JsError (List (String × List String))
    | [] => .ok []
    | (_, none) :: _ =>
      .error (.typeError "Cannot read properties of undefined")
    | (i, some e) :: rest => do
      let m ← go rest
      .ok ((i, unusedQuestionItems st e) :: m)

/-- The `exercises.forEach` loop of `autoReplaceQuestions` (part_007
lines 471-482): for each involved exercise, reads its entry of
`activeExercisesUnusedQuestionsMap` (whose evaluation itself may throw),
throws when it is missing or empty, shuffles it, and resolves each shuffled
item back to a question of the exercise (`find` may yield `undefined`). -/
def buildShuffledMap (shuffle : List String → List String) (st : QState)
    (activeIndex : Nat) :
    List String → Except JsError (List (String × List (Option QuizQuestion)))
  | [] => .ok []
  | eid :: rest => do
    let unusedMap ← activeExercisesUnusedQuestionsMap st activeIndex
    let unused := (unusedMap.lookup eid).getD []
    if unused.isEmpty then
      .error (.jsError "No unused questions found for exercise")
    else
      let shuffledItems := shuffle unused
      let exerciseQuestions :=
        match st.exerciseMap.lookup eid with
        | none => []
        | some e => exerciseToQuestionArray e
      let shuffledQuestions :=
        shuffledItems.map fun it => exerciseQuestions.find? fun q => q.item == it
      let m ← buildShuffledMap shuffle st activeIndex rest
      .ok ((eid, shuffledQuestions) :: m)

/-- `unusedQuestions.pop()` on the mutable per-exercise map (part_007
lines 486-487): pops the last element of the entry; a missing entry, an
empty entry or a popped `undefined` all yield `none`. -/
def mapPop (m : List (String × List (Option QuizQuestion))) (eid : String) :
    Option QuizQuestion × List (String × List (Option QuizQuestion)) :=
  match m.lookup eid with
  | none => (none, m)
  | some l =>
    match l.getLast? with
    | none => (none, m)
    | some x =>
      (x, m.map fun p => if p.1 == eid then (p.1, l.dropLast) else p)

/-- The `questionsToReplace.map` loop of `autoReplaceQuestions` (part_007
lines 484-492): draws one popped question per question to replace, throwing
when the pop yields nothing. -/
def drawNew :
    List QuizQuestion → List (String × List (Option QuizQuestion)) →
      Except JsError (List QuizQuestion)
  | [], _ => .ok []
  | q :: rest, m =>
    match mapPop m q.exercise_id with
    | (none, _) => .error (.jsError "No enough unused questions found for exercise")
    | (some r, m') => do
      let rs ← drawNew rest m'
      .ok (r :: rs)

/-- `autoReplaceQuestions` (part_007 lines 461-499): resolves the listed
items to active questions, builds the shuffled unused-question pools of the
involved exercises, draws one replacement per question, substitutes them
with `_replaceQuestions` and writes the result through `updateSection`.
The `shuffled` helper from `kolibri-common/utils/shuffled.js` is not among
the sources and is embedded as the explicit `shuffle` parameter. -/
def autoReplaceQuestions (shuffle : List String → List String) (st : QState)
    (activeIndex : Nat) (questionItems : List String) : QState × Option JsError :=
  if questionItems.isEmpty then (st, none)
  else
    let activeQs := activeQuestions st activeIndex
    let questionsToReplace :=
      questionItems.filterMap fun it => activeQs.find? fun q => q.item == it
    let exercises := uniqList (questionsToReplace.map (·.exercise_id))
    match buildShuffledMap shuffle st activeIndex exercises with
    | .error e => (st, some e)
    | .ok m0 =>
      match drawNew questionsToReplace m0 with
      | .error e => (st, some e)
      | .ok newQuestions =>
        let questionItemsToReplace := questionsToReplace.map (·.item)
        match _replaceQuestions activeQs questionItemsToReplace newQuestions with
        | .error e => (st, some e)
        | .ok questionsToAdd =>
          updateSection st activeIndex { questions := some questionsToAdd }

/-- The quiz states reachable through the operations listed by the spec:
`initializeQuiz` (for a new quiz) followed by any sequence of
`updateSection`, `addQuestionsToSection`, `addQuestionsToSectionFromResources`,
`autoReplaceQuestions`, `deleteActiveSelectedQuestions`, `addSection` and
`removeSection`.  Each step keeps the resulting state whether or not the
operation threw, exactly as a caller catching the exception would. -/
inductive Reachable : QState → Prop where
  | init (st : QState) (collection : String) :
      Reachable (initializeQuizNew st collection)
  | update {st : QState} (h : Reachable st) (i : Nat) (u : SectionUpdates) :
      Reachable (updateSection st i u).1
  | addQs {st : QState} (h : Reachable st) (i : Nat)
      (qs : Option (List QuizQuestion)) (res : Option (List Exercise))
      (rep : Option (List String)) :
      Reachable (addQuestionsToSection st i qs res rep).1
  | addFromRes {st : QState} (h : Reachable st)
      (shuffle : List QuizQuestion → List QuizQuestion) (i : Nat)
      (pool : Option (List Exercise)) (qc : Int) :
      Reachable (addQuestionsToSectionFromResources shuffle st i pool qc).1
  | autoReplace {st : QState} (h : Reachable st)
      (shuffle : List String → List String) (i : Nat) (items : List String) :
      Reachable (autoReplaceQuestions shuffle st i items).1
  | deleteSel {st : QState} (h : Reachable st) (i : Nat) :
      Reachable (deleteActiveSelectedQuestions st i).1
  | addSec {st : QState} (h : Reachable st) :
      Reachable (addSection st).1
  | removeSec {st : QState} (h : Reachable st) (i : Nat) :
      Reachable (removeSection st i).1

/-- One step of any operation of `useQuizCreation` that can run at all
(including quiz initialization from a fetched exam, the save success
handler, plain quiz updates and the selection operations), used to state
properties of every operation uniformly. -/
inductive Step : QState → QState → Prop where
  | update (st : QState) (i : Nat) (u : SectionUpdates) :
      Step st (updateSection st i u).1
  | updateQz (st : QState) (u : QuizUpdates) :
      Step st (updateQuiz st u).1
  | addQs (st : QState) (i : Nat) (qs : Option (List QuizQuestion))
      (res : Option (List Exercise)) (rep : Option (List String)) :
      Step st (addQuestionsToSection st i qs res rep).1
  | addFromRes (st : QState) (shuffle : List QuizQuestion → List QuizQuestion)
      (i : Nat) (pool : Option (List Exercise)) (qc : Int) :
      Step st (addQuestionsToSectionFromResources shuffle st i pool qc).1
  | autoReplace (st : QState) (shuffle : List String → List String) (i : Nat)
      (items : List String) :
      Step st (autoReplaceQuestions shuffle st i items).1
  | deleteSel (st : QState) (i : Nat) :
      Step st (deleteActiveSelectedQuestions st i).1
  | addSec (st : QState) : Step st (addSection st).1
  | removeSec (st : QState) (i : Nat) : Step st (removeSection st i).1
  | initNew (st : QState) (collection : String) :
      Step st (initializeQuizNew st collection)
  | initExisting (st : QState) (fetchedQuiz : Quiz) (exercises : List Exercise) :
      Step st (initializeQuizExisting st fetchedQuiz exercises)
  | save (st : QState) (validQ : Quiz → Bool) :
      Step st (saveQuiz validQ st).1
  | saveSuccess (st : QState) (examId : String) :
      Step st (saveQuizSuccess st examId)
  | addSel (st : QState) (ids : List String) :
      Step st (addQuestionsToSelection st ids)
  | removeSel (st : QState) (ids : List String) :
      Step st (removeQuestionsFromSelection st ids)
  | clearSel (st : QState) : Step st (clearSelectedQuestions st)

/-! ### Lemmas about `updateSection` -/

theorem allSections_setChanged (st : QState) (b : Bool) :
    allSections { st with quizHasChanged := b } = allSections st := rfl

theorem allSections_applyResourcePool (st : QState) (u : SectionUpdates) :
    allSections (applyResourcePool st u) = allSections st := by
  unfold applyResourcePool
  split <;> rfl

theorem quiz_applyResourcePool (st : QState) (u : SectionUpdates) :
    (applyResourcePool st u).quiz = st.quiz := by
  unfold applyResourcePool
  split <;> rfl

theorem selected_applyResourcePool (st : QState) (u : SectionUpdates) :
    (applyResourcePool st u).selectedQuestionIds = st.selectedQuestionIds := by
  unfold applyResourcePool
  split <;> rfl

theorem updateSection_oob {st : QState} {i : Nat} (u : SectionUpdates)
    (h : (allSections st)[i]? = none) :
    updateSection st i u =
      ({ st with quizHasChanged := true },
        some (.typeError "Section not found; cannot be updated.")) := by
  unfold updateSection
  simp only []
  have h' : (allSections { st with quizHasChanged := true })[i]? = none := h
  rw [h']

theorem updateSection_check_err {st : QState} {i : Nat} {u : SectionUpdates}
    {target : QuizSection} {e : JsError}
    (htgt : (allSections st)[i]? = some target)
    (hc : questionsCheck u = some e) :
    updateSection st i u = ({ st with quizHasChanged := true }, some e) := by
  unfold updateSection
  simp only []
  have h' : (allSections { st with quizHasChanged := true })[i]? = some target := htgt
  rw [h', hc]

theorem updateSection_ok_eq {st : QState} {i : Nat} {u : SectionUpdates}
    {target : QuizSection}
    (htgt : (allSections st)[i]? = some target)
    (hc : questionsCheck u = none) :
    updateSection st i u =
      ({ applyResourcePool { st with quizHasChanged := true } u with
          quiz :=
            { st.quiz with
              question_sources :=
                (allSections st).take i ++ [mergeSection target u] ++
                  (allSections st).drop (i + 1) } }, none) := by
  unfold updateSection
  simp only []
  have h' : (allSections { st with quizHasChanged := true })[i]? = some target := htgt
  rw [h', hc]
  have h1 : (applyResourcePool { st with quizHasChanged := true } u).quiz = st.quiz :=
    quiz_applyResourcePool _ _
  have h2 : allSections (applyResourcePool { st with quizHasChanged := true } u) =
      allSections st := allSections_applyResourcePool _ _
  simp only [h1, h2]

theorem updateSection_err_state {st : QState} {i : Nat} {u : SectionUpdates}
    (h : (updateSection st i u).2.isSome = true) :
    (updateSection st i u).1 = { st with quizHasChanged := true } := by
  cases htgt : (allSections st)[i]? with
  | none => rw [updateSection_oob u htgt]
  | some target =>
    cases hc : questionsCheck u with
    | none => rw [updateSection_ok_eq htgt hc] at h; simp at h
    | some e => rw [updateSection_check_err htgt hc]

theorem questionsCheck_none_length {u : SectionUpdates}
    {qs : List (Option QuizQuestion)} (hc : questionsCheck u = none)
    (hq : u.questions = some qs) :
    qs.length ≤ MAX_QUESTIONS_PER_QUIZ_SECTION := by
  by_contra hlen
  have hlt : qs.length > MAX_QUESTIONS_PER_QUIZ_SECTION := Nat.lt_of_not_le hlen
  simp only [questionsCheck, hq, hlt, if_true] at hc
  exact Option.noConfusion hc

theorem questionsCheck_long {u : SectionUpdates} {qs : List (Option QuizQuestion)}
    (hq : u.questions = some qs)
    (h : qs.length > MAX_QUESTIONS_PER_QUIZ_SECTION) :
    questionsCheck u =
      some (.typeError "Questions array must not exceed the maximum") := by
  simp only [questionsCheck, hq, h, if_true]

theorem questionsCheck_invalid {u : SectionUpdates}
    {qs : List (Option QuizQuestion)} (hq : u.questions = some qs)
    (hn : none ∈ qs) :
    (questionsCheck u).any JsError.isTypeError = true := by
  have hany : qs.any (fun q => !(validQuizQuestion q)) = true :=
    List.any_eq_true.mpr ⟨none, hn, rfl⟩
  by_cases hlen : qs.length > MAX_QUESTIONS_PER_QUIZ_SECTION
  · simp only [questionsCheck, hq, hlen, if_true]
    rfl
  · simp only [questionsCheck, hq, hlen, if_false, hany, if_true]
    rfl

theorem updateSection_typeError_of_long {st : QState} {i : Nat}
    {u : SectionUpdates} {qs : List (Option QuizQuestion)}
    (hq : u.questions = some qs)
    (h : qs.length > MAX_QUESTIONS_PER_QUIZ_SECTION) :
    ((updateSection st i u).2.any JsError.isTypeError) = true := by
  cases htgt : (allSections st)[i]? with
  | none => rw [updateSection_oob u htgt]; rfl
  | some target =>
    rw [updateSection_check_err htgt (questionsCheck_long hq h)]
    rfl

theorem updateSection_typeError_of_invalid {st : QState} {i : Nat}
    {u : SectionUpdates} {qs : List (Option QuizQuestion)}
    (hq : u.questions = some qs) (hn : none ∈ qs) :
    ((updateSection st i u).2.any JsError.isTypeError) = true := by
  cases htgt : (allSections st)[i]? with
  | none => rw [updateSection_oob u htgt]; rfl
  | some target =>
    have hc := questionsCheck_invalid hq hn
    cases hcv : questionsCheck u with
    | none => rw [hcv] at hc; simp at hc
    | some e =>
      rw [updateSection_check_err htgt hcv]
      rw [hcv] at hc
      exact hc

/-! ### The section-size invariant -/

/-- Every section of the quiz holds at most `MAX_QUESTIONS_PER_QUIZ_SECTION`
questions. -/
def sectionsBounded (st : QState) : Prop :=
  ∀ sec ∈ allSections st, sec.questions.length ≤ MAX_QUESTIONS_PER_QUIZ_SECTION

theorem defaultSection_bounded :
    defaultSection.questions.length ≤ MAX_QUESTIONS_PER_QUIZ_SECTION := by
  simp [defaultSection, MAX_QUESTIONS_PER_QUIZ_SECTION]

theorem updateSection_bounded {st : QState} {i : Nat} {u : SectionUpdates}
    (hb : sectionsBounded st) : sectionsBounded (updateSection st i u).1 := by
  cases htgt : (allSections st)[i]? with
  | none => rw [updateSection_oob u htgt]; exact hb
  | some target =>
    cases hc : questionsCheck u with
    | some e => rw [updateSection_check_err htgt hc]; exact hb
    | none =>
      rw [updateSection_ok_eq htgt hc]
      intro sec hsec
      have hsec' :
          sec ∈ (allSections st).take i ++ [mergeSection target u] ++
            (allSections st).drop (i + 1) := hsec
      rcases List.mem_append.mp hsec' with h1 | h2
      · rcases List.mem_append.mp h1 with ht | hm
        · exact hb sec (List.take_subset i _ ht)
        · have hsm : sec = mergeSection target u := List.mem_singleton.mp hm
          subst hsm
          unfold mergeSection
          cases hq : u.questions with
          | none =>
            simp only [hq]
            exact hb target (List.getElem?_mem htgt)
          | some qs =>
            simp only [hq]
            exact Nat.le_trans (List.length_filterMap_le id qs)
              (questionsCheck_none_length hc hq)
      · exact hb sec (List.drop_subset (i + 1) _ h2)

/-! ### Monotonicity of the exercise cache -/

/-- Every key mapped in `m` is still mapped in `m'`. -/
def MapLe (m m' : List (String × Exercise)) : Prop :=
  ∀ k, (m.lookup k).isSome = true → (m'.lookup k).isSome = true

theorem mapLe_refl (m : List (String × Exercise)) : MapLe m m := fun _ h => h

theorem mapLe_trans {a b c : List (String × Exercise)}
    (h1 : MapLe a b) (h2 : MapLe b c) : MapLe a c :=
  fun k hk => h2 k (h1 k hk)

theorem mapLe_insert (m : List (String × Exercise)) (e : Exercise) :
    MapLe m (mapInsert m e) := by
  intro k hk
  unfold mapInsert
  rw [List.lookup_cons]
  cases hbe : k == e.id with
  | true => rfl
  | false => exact hk

theorem mapLe_insertAll (m : List (String × Exercise)) (pool : List Exercise) :
    MapLe m (mapInsertAll m pool) := by
  induction pool generalizing m with
  | nil => exact mapLe_refl m
  | cons e rest ih =>
    exact mapLe_trans (mapLe_insert m e) (ih (mapInsert m e))

theorem mapLe_applyResourcePool (st : QState) (u : SectionUpdates) :
    MapLe st.exerciseMap (applyResourcePool st u).exerciseMap := by
  unfold applyResourcePool
  cases u.resourcePool with
  | none => exact mapLe_refl _
  | some pool => exact mapLe_insertAll _ pool

theorem updateSection_mapLe {st : QState} {i : Nat} {u : SectionUpdates} :
    MapLe st.exerciseMap (updateSection st i u).1.exerciseMap := by
  cases htgt : (allSections st)[i]? with
  | none => rw [updateSection_oob u htgt]; exact mapLe_refl _
  | some target =>
    cases hc : questionsCheck u with
    | some e => rw [updateSection_check_err htgt hc]; exact mapLe_refl _
    | none =>
      rw [updateSection_ok_eq htgt hc]
      exact mapLe_applyResourcePool { st with quizHasChanged := true } u

/-! ### Delegation shape of the composite operations -/

theorem addQuestionsToSection_fst (st : QState) (i : Nat)
    (qs : Option (List QuizQuestion)) (res : Option (List Exercise))
    (rep : Option (List String)) :
    (addQuestionsToSection st i qs res rep).1 = st ∨
      ∃ u, (addQuestionsToSection st i qs res rep).1 = (updateSection st i u).1 := by
  unfold addQuestionsToSection
  simp only []
  split
  · exact Or.inl rfl
  · split
    · exact Or.inl rfl
    · exact Or.inl rfl
    · split
      · exact Or.inl rfl
      · exact Or.inr ⟨_, rfl⟩

theorem addQuestionsToSectionFromResources_fst
    (shuffle : List QuizQuestion → List QuizQuestion) (st : QState) (i : Nat)
    (pool : Option (List Exercise)) (qc : Int) :
    (addQuestionsToSectionFromResources shuffle st i pool qc).1 = st ∨
      ∃ u, (addQuestionsToSectionFromResources shuffle st i pool qc).1 =
        (updateSection st i u).1 := by
  unfold addQuestionsToSectionFromResources
  split
  · exact Or.inl rfl
  · split
    · exact Or.inl rfl
    · exact Or.inl rfl
    · split
      · exact Or.inl rfl
      · split
        · exact Or.inl rfl
        · exact Or.inr ⟨_, rfl⟩

theorem autoReplaceQuestions_fst (shuffle : List String → List String)
    (st : QState) (i : Nat) (items : List String) :
    (autoReplaceQuestions shuffle st i items).1 = st ∨
      ∃ u, (autoReplaceQuestions shuffle st i items).1 = (updateSection st i u).1 := by
  unfold autoReplaceQuestions
  simp only []
  split
  · exact Or.inl rfl
  · split
    · exact Or.inl rfl
    · split
      · exact Or.inl rfl
      · split
        · exact Or.inl rfl
        · exact Or.inr ⟨_, rfl⟩

theorem deleteActiveSelectedQuestions_fst (st : QState) (i : Nat) :
    (deleteActiveSelectedQuestions st i).1 = st ∨
      ∃ u, (deleteActiveSelectedQuestions st i).1 = (updateSection st i u).1 ∨
        (deleteActiveSelectedQuestions st i).1 =
          { (updateSection st i u).1 with selectedQuestionIds := [] } := by
  unfold deleteActiveSelectedQuestions
  cases h : (allSections st)[i]? with
  | none => exact Or.inl rfl
  | some sec =>
    simp only [h]
    cases hus : updateSection st i
        { questions :=
            some ((sec.questions.filter
              fun q => !(st.selectedQuestionIds.contains q.item)).map some) } with
    | mk st1 err =>
      cases err with
      | some e =>
        exact Or.inr ⟨_, Or.inl (congrArg Prod.fst hus.symm)⟩
      | none =>
        exact Or.inr ⟨_, Or.inr (congrArg
          (fun x => { x.1 with selectedQuestionIds := ([] : List String) }) hus.symm)⟩

theorem saveQuiz_fst (validQ : Quiz → Bool) (st : QState) :
    (saveQuiz validQ st).1 = st := by
  unfold saveQuiz
  split <;> rfl

theorem allSections_addSection (st : QState) :
    allSections (addSection st).1 = allSections st ++ [defaultSection] := rfl

theorem addSection_bounded {st : QState} (hb : sectionsBounded st) :
    sectionsBounded (addSection st).1 := by
  intro sec hsec
  rw [allSections_addSection] at hsec
  rcases List.mem_append.mp hsec with h1 | h2
  · exact hb sec h1
  · rw [List.mem_singleton.mp h2]
    exact defaultSection_bounded

theorem removeSection_bounded {st : QState} {i : Nat} (hb : sectionsBounded st) :
    sectionsBounded (removeSection st i).1 := by
  unfold removeSection
  cases h : (allSections st)[i]? with
  | none => exact hb
  | some sec =>
    simp only [h]
    split
    · intro sec' hsec'
      have hsec'' : sec' ∈
          ((allSections st).take i ++ (allSections st).drop (i + 1)) ++
            [defaultSection] := hsec'
      rcases List.mem_append.mp hsec'' with h1 | h2
      · rcases List.mem_append.mp h1 with ht | hd
        · exact hb sec' (List.take_subset i _ ht)
        · exact hb sec' (List.drop_subset (i + 1) _ hd)
      · rw [List.mem_singleton.mp h2]
        exact defaultSection_bounded
    · intro sec' hsec'
      have hsec'' : sec' ∈
          (allSections st).take i ++ (allSections st).drop (i + 1) := hsec'
      rcases List.mem_append.mp hsec'' with ht | hd
      · exact hb sec' (List.take_subset i _ ht)
      · exact hb sec' (List.drop_subset (i + 1) _ hd)

theorem initializeQuizNew_bounded (st : QState) (c : String) :
    sectionsBounded (initializeQuizNew st c) := by
  intro sec hsec
  have h : sec ∈ [defaultSection] := hsec
  rw [List.mem_singleton.mp h]
  exact defaultSection_bounded

/-- Every state reachable through the spec-listed operations has every
section bounded by the maximum. -/
theorem reachable_bounded {st : QState} (h : Reachable st) : sectionsBounded st := by
  induction h with
  | init st c => exact initializeQuizNew_bounded st c
  | update h i u ih => exact updateSection_bounded ih
  | addQs h i qs res rep ih =>
    rcases addQuestionsToSection_fst _ i qs res rep with h1 | ⟨u, h1⟩ <;> rw [h1]
    · exact ih
    · exact updateSection_bounded ih
  | addFromRes h shuffle i pool qc ih =>
    rcases addQuestionsToSectionFromResources_fst shuffle _ i pool qc with h1 | ⟨u, h1⟩ <;>
      rw [h1]
    · exact ih
    · exact updateSection_bounded ih
  | autoReplace h shuffle i items ih =>
    rcases autoReplaceQuestions_fst shuffle _ i items with h1 | ⟨u, h1⟩ <;> rw [h1]
    · exact ih
    · exact updateSection_bounded ih
  | deleteSel h i ih =>
    rcases deleteActiveSelectedQuestions_fst _ i with h1 | ⟨u, h1 | h1⟩ <;> rw [h1]
    · exact ih
    · exact updateSection_bounded ih
    · exact fun sec hs => updateSection_bounded ih sec hs
  | addSec h ih => exact addSection_bounded ih
  | removeSec h i ih => exact removeSection_bounded ih

theorem removeSection_exerciseMap (st : QState) (i : Nat) :
    (removeSection st i).1.exerciseMap = st.exerciseMap := by
  unfold removeSection
  cases h : (allSections st)[i]? with
  | none => rfl
  | some sec =>
    simp only [h]
    split <;> rfl

theorem saveQuizSuccess_exerciseMap (st : QState) (examId : String) :
    (saveQuizSuccess st examId).exerciseMap = st.exerciseMap := by
  unfold saveQuizSuccess
  split <;> rfl

theorem initializeQuizExisting_mapLe (st : QState) (q : Quiz)
    (exs : List Exercise) :
    MapLe st.exerciseMap (initializeQuizExisting st q exs).exerciseMap := by
  unfold initializeQuizExisting
  simp only []
  split <;> exact mapLe_insertAll _ exs

/-- Every operation of the module only grows the exercise cache. -/
theorem step_mapLe {st st' : QState} (h : Step st st') :
    MapLe st.exerciseMap st'.exerciseMap := by
  cases h with
  | update i u => exact updateSection_mapLe
  | updateQz u => exact mapLe_refl _
  | addQs i qs res rep =>
    rcases addQuestionsToSection_fst st i qs res rep with h1 | ⟨u, h1⟩ <;> rw [h1]
    · exact mapLe_refl _
    · exact updateSection_mapLe
  | addFromRes shuffle i pool qc =>
    rcases addQuestionsToSectionFromResources_fst shuffle st i pool qc with h1 | ⟨u, h1⟩ <;>
      rw [h1]
    · exact mapLe_refl _
    · exact updateSection_mapLe
  | autoReplace shuffle i items =>
    rcases autoReplaceQuestions_fst shuffle st i items with h1 | ⟨u, h1⟩ <;> rw [h1]
    · exact mapLe_refl _
    · exact updateSection_mapLe
  | deleteSel i =>
    rcases deleteActiveSelectedQuestions_fst st i with h1 | ⟨u, h1 | h1⟩ <;> rw [h1]
    · exact mapLe_refl _
    · exact updateSection_mapLe
    · exact fun k hk => updateSection_mapLe k hk
  | addSec => exact mapLe_refl _
  | removeSec i => rw [removeSection_exerciseMap]; exact mapLe_refl _
  | initNew c => exact mapLe_refl _
  | initExisting q exs => exact initializeQuizExisting_mapLe st q exs
  | save validQ => rw [saveQuiz_fst]; exact mapLe_refl _
  | saveSuccess examId => rw [saveQuizSuccess_exerciseMap]; exact mapLe_refl _
  | addSel ids => exact mapLe_refl _
  | removeSel ids => exact mapLe_refl _
  | clearSel => exact mapLe_refl _

/-! ### Characterization of `_replaceQuestions` -/

/-- How many of the first `i` base questions are matched by the item list:
the replacement consumed at a matched position `i` is the one at this
index. -/
def matchedBefore (toRep : List String) (base : List QuizQuestion) (i : Nat) : Nat :=
  ((base.take i).filter fun q => toRep.contains q.item).length

theorem replaceGo_cons (toRep : List String) (b : QuizQuestion)
    (rest : List QuizQuestion) (reps : List QuizQuestion) :
    replaceGo toRep (b :: rest) reps =
      (if toRep.contains b.item then reps.head? :: replaceGo toRep rest reps.tail
       else some b :: replaceGo toRep rest reps) := by
  by_cases hc : toRep.contains b.item = true
  · simp only [replaceGo]
    rw [if_pos hc, if_pos hc]
    cases reps with
    | nil => rfl
    | cons r rs => rfl
  · simp only [replaceGo]
    rw [if_neg hc, if_neg hc]

theorem replaceGo_length (toRep : List String) :
    ∀ (base : List QuizQuestion) (reps : List QuizQuestion),
      (replaceGo toRep base reps).length = base.length := by
  intro base
  induction base with
  | nil => intro reps; rfl
  | cons b rest ih =>
    intro reps
    rw [replaceGo_cons]
    by_cases hc : toRep.contains b.item = true
    · rw [if_pos hc, List.length_cons, List.length_cons, ih]
    · rw [if_neg hc, List.length_cons, List.length_cons, ih]

theorem replaceGo_getElem (toRep : List String) :
    ∀ (base : List QuizQuestion) (reps : List QuizQuestion) (i : Nat)
      (q : QuizQuestion), base[i]? = some q →
      (replaceGo toRep base reps)[i]? =
        some (if toRep.contains q.item then reps[matchedBefore toRep base i]?
              else some q) := by
  intro base
  induction base with
  | nil => intro reps i q h; simp at h
  | cons b rest ih =>
    intro reps i q h
    cases i with
    | zero =>
      rw [List.getElem?_cons_zero] at h
      have hq : b = q := Option.some.inj h
      subst hq
      rw [replaceGo_cons]
      by_cases hc : toRep.contains b.item = true
      · rw [if_pos hc, if_pos hc, List.getElem?_cons_zero]
        cases reps <;> simp [matchedBefore]
      · rw [if_neg hc, if_neg hc, List.getElem?_cons_zero]
    | succ i =>
      rw [List.getElem?_cons_succ] at h
      rw [replaceGo_cons]
      by_cases hc : toRep.contains b.item = true
      · rw [if_pos hc, List.getElem?_cons_succ, ih reps.tail i q h]
        have hmb : matchedBefore toRep (b :: rest) (i + 1) =
            matchedBefore toRep rest i + 1 := by
          unfold matchedBefore
          rw [List.take_succ_cons, List.filter_cons, if_pos hc, List.length_cons]
        rw [hmb]
        have htail : reps.tail[matchedBefore toRep rest i]? =
            reps[matchedBefore toRep rest i + 1]? := by
          cases reps <;> simp
        rw [htail]
      · rw [if_neg hc, List.getElem?_cons_succ, ih reps i q h]
        have hmb : matchedBefore toRep (b :: rest) (i + 1) =
            matchedBefore toRep rest i := by
          unfold matchedBefore
          rw [List.take_succ_cons, List.filter_cons, if_neg hc]
        rw [hmb]

/-! ### Concrete fixtures used by witnesses and counterexamples -/

/-- A question of exercise `E`. -/
def bq : QuizQuestion := { exercise_id := "E", question_id := "1", item := "E:1" }

/-- Another question of exercise `E`. -/
def rq : QuizQuestion := { exercise_id := "E", question_id := "2", item := "E:2" }

/-- The initial module state: `_quiz` starts as `objectWithDefaults({}, Quiz)`
(part_007 line 49), the cache and the selection empty. -/
def blankState : QState :=
  { quiz := defaultQuiz "" []
    quizHasChanged := false
    exerciseMap := []
    selectedQuestionIds := [] }

/-- The state right after `initializeQuiz('c')` for a new quiz. -/
def initState : QState := initializeQuizNew blankState "c"

/-- An exercise with two assessment items. -/
def exA : Exercise := { id := "A", assessment_item_ids := ["1", "2"] }

/-- A state whose exercise cache holds `exA`. -/
def stWithA : QState := { blankState with exerciseMap := [("A", exA)] }

/-! ### Claim theorems -/

/-- C2: `_replaceQuestions` throws a `TypeError` exactly when the item list
and the replacement list differ in length; on equal lengths it returns an
array of the base array's length in which the question at every unmatched
position is unchanged and the question at a matched position is the
replacement whose index is the number of matched positions before it (which
is `undefined` — `none` — once the replacements are exhausted, as happens
when several base questions share a listed item). -/
theorem c2_replaceQuestions_spec (base reps : List QuizQuestion)
    (toRep : List String) :
    (toRep.length ≠ reps.length →
      _replaceQuestions base toRep reps = .error (.typeError
        "The number of question items to replace must match the number of replacements")) ∧
    (∀ e, _replaceQuestions base toRep reps = .error e →
      toRep.length ≠ reps.length ∧ e.isTypeError = true) ∧
    (∀ out, _replaceQuestions base toRep reps = .ok out →
      toRep.length = reps.length ∧
      out.length = base.length ∧
      ∀ i q, base[i]? = some q →
        (toRep.contains q.item = false → out[i]? = some (some q)) ∧
        (toRep.contains q.item = true →
          out[i]? = some reps[matchedBefore toRep base i]?)) := by
  unfold _replaceQuestions
  by_cases h : toRep.length = reps.length
  · rw [if_neg (by exact fun hne => hne h)]
    refine ⟨fun hne => absurd h hne, ?_, ?_⟩
    · intro e he
      exact Except.noConfusion he
    · intro out hout
      have hout' : replaceGo toRep base reps = out := by
        exact (Except.ok.injEq _ _ ▸ hout : _)
      subst hout'
      refine ⟨h, replaceGo_length toRep base reps, ?_⟩
      intro i q hq
      constructor
      · intro hc
        rw [replaceGo_getElem toRep base reps i q hq, hc]
        simp
      · intro hc
        rw [replaceGo_getElem toRep base reps i q hq, hc]
        simp
  · rw [if_pos h]
    refine ⟨fun _ => rfl, ?_, ?_⟩
    · intro e he
      have he' : JsError.typeError
          "The number of question items to replace must match the number of replacements" = e := by
        exact (Except.error.injEq _ _ ▸ he : _)
      subst he'
      exact ⟨h, rfl⟩
    · intro out hout
      exact Except.noConfusion hout

/-- C2 witness: at a concrete mismatched input the hypothesis of the first
conjunct holds and the error is produced. -/
theorem c2_replaceQuestions_spec_witness :
    (["E:1"] : List String).length ≠ ([] : List QuizQuestion).length ∧
    _replaceQuestions [bq] ["E:1"] [] = .error (.typeError
      "The number of question items to replace must match the number of replacements") :=
  ⟨by decide, (c2_replaceQuestions_spec [bq] [] ["E:1"]).1 (by decide)⟩

/-- C2 counterexample: with base questions `[bq, bq]` sharing the listed
item, an item list and a replacement list of equal length 1, the claim
asserts no throw and that each matched question is substituted by a
replacement; the code indeed does not throw but produces
`[some rq, none]` — the second matched position receives `undefined`, not a
replacement. -/
theorem c2_replaceQuestions_counterexample :
    (["E:1"] : List String).length = ([rq] : List QuizQuestion).length ∧
    _replaceQuestions [bq, bq] ["E:1"] [rq] = .ok [some rq, none] := by
  constructor
  · rfl
  · rfl

/-- C3: `updateSection` throws a `TypeError` whenever the provided questions
array exceeds `MAX_QUESTIONS_PER_QUIZ_SECTION` elements, and whenever it
contains an invalid (`undefined`) entry; whenever `updateSection` throws,
the quiz is unchanged; and every quiz state reachable through the
operations has every section's question count bounded by the maximum. -/
theorem c3_updateSection_bound :
    (∀ st i (u : SectionUpdates) qs, u.questions = some qs →
      qs.length > MAX_QUESTIONS_PER_QUIZ_SECTION →
      ((updateSection st i u).2.any JsError.isTypeError) = true) ∧
    (∀ st i (u : SectionUpdates) qs, u.questions = some qs → none ∈ qs →
      ((updateSection st i u).2.any JsError.isTypeError) = true) ∧
    (∀ st i (u : SectionUpdates), (updateSection st i u).2.isSome = true →
      (updateSection st i u).1.quiz = st.quiz) ∧
    (∀ st, Reachable st → sectionsBounded st) :=
  ⟨fun _ _ _ _ hq h => updateSection_typeError_of_long hq h,
   fun _ _ _ _ hq hn => updateSection_typeError_of_invalid hq hn,
   fun _ _ _ h => by rw [updateSection_err_state h],
   fun _ h => reachable_bounded h⟩

/-- C3 witness: a 51-element questions array is rejected with a `TypeError`
on a concrete state, a throwing call (out-of-range index) leaves the quiz
unchanged, and the freshly initialized state is bounded. -/
theorem c3_updateSection_bound_witness :
    (List.replicate 51 (some bq)).length > MAX_QUESTIONS_PER_QUIZ_SECTION ∧
    ((updateSection initState 0
        { questions := some (List.replicate 51 (some bq)) }).2.any
      JsError.isTypeError) = true ∧
    (updateSection initState 7 {}).2.isSome = true ∧
    (updateSection initState 7 {}).1.quiz = initState.quiz ∧
    sectionsBounded (initializeQuizNew blankState "x") :=
  ⟨by decide,
   c3_updateSection_bound.1 initState 0 _ _ rfl (by decide),
   by decide,
   c3_updateSection_bound.2.2.1 initState 7 {} (by decide),
   c3_updateSection_bound.2.2.2 _ (Reachable.init blankState "x")⟩

/-- C7: every operation of the module can only add or overwrite entries of
the exercise cache: an exercise id mapped before a step is still mapped
after it. -/
theorem c7_exerciseMap_monotone : ∀ st st', Step st st' →
    ∀ k, (st.exerciseMap.lookup k).isSome = true →
      (st'.exerciseMap.lookup k).isSome = true :=
  fun _ _ h => step_mapLe h

/-- C7 witness: a concrete cached exercise survives an `addSection` step. -/
theorem c7_exerciseMap_monotone_witness :
    ((stWithA.exerciseMap.lookup "A").isSome = true) ∧
    (((addSection stWithA).1.exerciseMap.lookup "A").isSome = true) :=
  ⟨by decide,
   c7_exerciseMap_monotone stWithA (addSection stWithA).1 (Step.addSec stWithA)
     "A" (by decide)⟩

theorem removeSection_ok_parts {st : QState} {i : Nat} {tgt : QuizSection}
    (h : (allSections st)[i]? = some tgt) :
    (removeSection st i).2 = none ∧
    allSections (removeSection st i).1 =
      (if ((allSections st).take i ++ (allSections st).drop (i + 1)) = []
       then [defaultSection]
       else (allSections st).take i ++ (allSections st).drop (i + 1)) := by
  unfold removeSection
  simp only [h]
  by_cases hz :
      (allSections (updateQuiz st
        { question_sources :=
            some ((allSections st).take i ++ (allSections st).drop (i + 1)) }).1).length = 0
  · rw [if_pos hz]
    have hnil : allSections (updateQuiz st
        { question_sources :=
            some ((allSections st).take i ++ (allSections st).drop (i + 1)) }).1 = [] :=
      List.length_eq_zero.mp hz
    have hnil' : (allSections st).take i ++ (allSections st).drop (i + 1) = [] := hnil
    refine ⟨rfl, ?_⟩
    rw [allSections_addSection, hnil, if_pos hnil']
    rfl
  · rw [if_neg hz]
    refine ⟨rfl, ?_⟩
    have hup : allSections (updateQuiz st
        { question_sources :=
            some ((allSections st).take i ++ (allSections st).drop (i + 1)) }).1 =
        (allSections st).take i ++ (allSections st).drop (i + 1) := rfl
    rw [hup]
    have hne : ¬((allSections st).take i ++ (allSections st).drop (i + 1) = []) := by
      intro heq
      exact hz (by rw [hup, heq]; rfl)
    rw [if_neg hne]

/-- C9: `removeSection` throws (with the quiz unchanged) exactly when no
section exists at the index; otherwise it removes exactly the section at
that index and, when the removed section was the last one, immediately
appends a fresh default section, so that a non-throwing call always leaves
at least one section. -/
theorem c9_removeSection_spec : ∀ (st : QState) (i : Nat),
    ((allSections st)[i]? = none →
      removeSection st i =
        (st, some (.jsError "Section not found; cannot be removed."))) ∧
    (∀ tgt, (allSections st)[i]? = some tgt →
      (removeSection st i).2 = none ∧
      allSections (removeSection st i).1 =
        (if (allSections st).eraseIdx i = [] then [defaultSection]
         else (allSections st).eraseIdx i) ∧
      1 ≤ (allSections (removeSection st i).1).length) := by
  intro st i
  constructor
  · intro h
    unfold removeSection
    simp only [h]
  · intro tgt h
    obtain ⟨h2, h3⟩ := removeSection_ok_parts h
    rw [List.eraseIdx_eq_take_drop_succ]
    refine ⟨h2, h3, ?_⟩
    rw [h3]
    by_cases hz : (allSections st).take i ++ (allSections st).drop (i + 1) = []
    · rw [if_pos hz]
      exact Nat.le_refl 1
    · rw [if_neg hz]
      exact Nat.one_le_iff_ne_zero.mpr (fun h0 => hz (List.length_eq_zero.mp h0))

/-- C9 witness: removing the only section of the freshly initialized quiz
succeeds and leaves one fresh section; removing at an out-of-range index
throws and leaves the state unchanged. -/
theorem c9_removeSection_spec_witness :
    ((allSections initState)[3]? = none) ∧
    (removeSection initState 3 =
      (initState, some (.jsError "Section not found; cannot be removed."))) ∧
    ((allSections initState)[0]? = some defaultSection) ∧
    ((removeSection initState 0).2 = none ∧
      allSections (removeSection initState 0).1 =
        (if (allSections initState).eraseIdx 0 = [] then [defaultSection]
         else (allSections initState).eraseIdx 0) ∧
      1 ≤ (allSections (removeSection initState 0).1).length) :=
  ⟨by decide,
   (c9_removeSection_spec initState 3).1 (by decide),
   by decide,
   (c9_removeSection_spec initState 0).2 defaultSection (by decide)⟩

theorem updateSection_none_elim {st : QState} {i : Nat} {u : SectionUpdates}
    (h : (updateSection st i u).2 = none) :
    ∃ target, (allSections st)[i]? = some target ∧ questionsCheck u = none := by
  cases htgt : (allSections st)[i]? with
  | none =>
    rw [updateSection_oob u htgt] at h
    exact Option.noConfusion h
  | some target =>
    cases hc : questionsCheck u with
    | none => exact ⟨target, rfl, rfl⟩
    | some e =>
      rw [updateSection_check_err htgt hc] at h
      exact Option.noConfusion h

/-- C10: a non-throwing `updateSection` call modifies only the section at
`sectionIndex`: every quiz field other than `question_sources` is unchanged,
the section count is unchanged, every section at a different index is
unchanged (same contents, same order), and within the target section only
the fields present in the updates object change. -/
theorem c10_updateSection_frame : ∀ (st : QState) (i : Nat) (u : SectionUpdates),
    (updateSection st i u).2 = none →
    ((updateSection st i u).1.quiz.id = st.quiz.id ∧
     (updateSection st i u).1.quiz.title = st.quiz.title ∧
     (updateSection st i u).1.quiz.assignments = st.quiz.assignments ∧
     (updateSection st i u).1.quiz.learner_ids = st.quiz.learner_ids ∧
     (updateSection st i u).1.quiz.collection = st.quiz.collection ∧
     (updateSection st i u).1.quiz.learners_see_fixed_order =
       st.quiz.learners_see_fixed_order ∧
     (updateSection st i u).1.quiz.instant_report_visibility =
       st.quiz.instant_report_visibility ∧
     (updateSection st i u).1.quiz.draft = st.quiz.draft ∧
     (updateSection st i u).1.quiz.active = st.quiz.active ∧
     (updateSection st i u).1.quiz.archive = st.quiz.archive) ∧
    (allSections (updateSection st i u).1).length = (allSections st).length ∧
    (∀ j, j ≠ i →
      (allSections (updateSection st i u).1)[j]? = (allSections st)[j]?) ∧
    (∀ tgt tgt', (allSections st)[i]? = some tgt →
      (allSections (updateSection st i u).1)[i]? = some tgt' →
      tgt'.section_id = tgt.section_id ∧
      (u.section_title = none → tgt'.section_title = tgt.section_title) ∧
      (∀ v, u.section_title = some v → tgt'.section_title = v) ∧
      (u.description = none → tgt'.description = tgt.description) ∧
      (∀ v, u.description = some v → tgt'.description = v) ∧
      (u.learners_see_fixed_order = none →
        tgt'.learners_see_fixed_order = tgt.learners_see_fixed_order) ∧
      (∀ v, u.learners_see_fixed_order = some v →
        tgt'.learners_see_fixed_order = v) ∧
      (u.questions = none → tgt'.questions = tgt.questions) ∧
      (∀ qs, u.questions = some qs → tgt'.questions = qs.filterMap id)) := by
  intro st i u h
  obtain ⟨tgt0, htgt, hc⟩ := updateSection_none_elim h
  have hi : i < (allSections st).length := by
    obtain ⟨hi, -⟩ := List.getElem?_eq_some_iff.mp htgt
    exact hi
  rw [updateSection_ok_eq htgt hc]
  have hsec : allSections
      ({ applyResourcePool { st with quizHasChanged := true } u with
          quiz :=
            { st.quiz with
              question_sources :=
                (allSections st).take i ++ [mergeSection tgt0 u] ++
                  (allSections st).drop (i + 1) } } : QState) =
      (allSections st).take i ++ [mergeSection tgt0 u] ++
        (allSections st).drop (i + 1) := rfl
  have hlen1 : ((allSections st).take i ++ [mergeSection tgt0 u]).length = i + 1 := by
    rw [List.length_append, List.length_take]
    simp
    omega
  refine ⟨⟨rfl, rfl, rfl, rfl, rfl, rfl, rfl, rfl, rfl, rfl⟩, ?_, ?_, ?_⟩
  · rw [hsec, List.length_append, hlen1, List.length_drop]
    omega
  · intro j hj
    rw [hsec]
    rcases Nat.lt_or_ge j i with hlt | hge
    · rw [List.getElem?_append_left (by rw [hlen1]; omega),
        List.getElem?_append_left (by rw [List.length_take]; omega),
        List.getElem?_take_of_lt hlt]
    · have hgt : i < j := Nat.lt_of_le_of_ne hge (fun e => hj e.symm)
      rw [List.getElem?_append_right (by rw [hlen1]; omega), hlen1,
        List.getElem?_drop]
      have harith : i + 1 + (j - (i + 1)) = j := by omega
      rw [harith]
  · intro tgt tgt' htgt2 htgt'
    have htgteq : tgt0 = tgt := Option.some.inj (htgt ▸ htgt2)
    subst htgteq
    rw [hsec] at htgt'
    have hmid : ((allSections st).take i ++ [mergeSection tgt0 u] ++
        (allSections st).drop (i + 1))[i]? = some (mergeSection tgt0 u) := by
      rw [List.getElem?_append_left (by rw [hlen1]; omega),
        List.getElem?_append_right (by rw [List.length_take]; omega)]
      have hz : i - ((allSections st).take i).length = 0 := by
        rw [List.length_take]
        omega
      rw [hz, List.getElem?_cons_zero]
    have htgt'' : tgt' = mergeSection tgt0 u :=
      Option.some.inj (htgt'.symm.trans hmid)
    subst htgt''
    refine ⟨rfl, ?_, ?_, ?_, ?_, ?_, ?_, ?_, ?_⟩
    · intro hnone; simp [mergeSection, hnone]
    · intro v hv; simp [mergeSection, hv]
    · intro hnone; simp [mergeSection, hnone]
    · intro v hv; simp [mergeSection, hv]
    · intro hnone; simp [mergeSection, hnone]
    · intro v hv; simp [mergeSection, hv]
    · intro hnone; simp [mergeSection, hnone]
    · intro qs hqs; simp [mergeSection, hqs]

/-- C10 witness: a title-only update on the freshly initialized quiz keeps
every quiz field, the section count, and the target section's other fields. -/
theorem c10_updateSection_frame_witness :
    ((updateSection initState 0 { section_title := some "t" }).2 = none) ∧
    ((updateSection initState 0 { section_title := some "t" }).1.quiz.collection =
       initState.quiz.collection ∧
     (allSections (updateSection initState 0 { section_title := some "t" }).1).length =
       (allSections initState).length) :=
  have h : (updateSection initState 0 { section_title := some "t" }).2 = none := by
    decide
  ⟨h,
   (c10_updateSection_frame initState 0 { section_title := some "t" } h).1.2.2.2.2.1,
   (c10_updateSection_frame initState 0 { section_title := some "t" } h).2.1⟩

/-- The number of questions of the pool that are available for selection:
not already used anywhere in the quiz (the exclusion list passed to
`selectQuestions` at part_007 line 150). -/
def availableCount (st : QState) (pool : List Exercise) : Nat :=
  ((pool.flatMap exerciseToQuestionArray).filter
    fun q => !((allQuizItems st).contains q.item)).length

/-- C4: `addQuestionsToSectionFromResources` throws whenever the requested
count exceeds the number of available (unused) questions of the pool, and
throws a `TypeError` when the resource pool is missing or empty or when the
question count is missing (`0`) or less than `1`. -/
theorem c4_addFromResources_errors :
    ∀ (shuffle : List QuizQuestion → List QuizQuestion) (st : QState) (i : Nat)
      (p : List Exercise) (qc : Int),
    (((availableCount st p : Int) < qc) →
      ((addQuestionsToSectionFromResources shuffle st i (some p) qc).2).isSome = true) ∧
    (((addQuestionsToSectionFromResources shuffle st i none qc).2).any
      JsError.isTypeError = true) ∧
    (((addQuestionsToSectionFromResources shuffle st i (some []) qc).2).any
      JsError.isTypeError = true) ∧
    (qc < 1 →
      ((addQuestionsToSectionFromResources shuffle st i (some p) qc).2).any
        JsError.isTypeError = true) := by
  intro shuffle st i p qc
  refine ⟨?_, ?_, ?_, ?_⟩
  · intro hlt
    unfold addQuestionsToSectionFromResources
    cases htgt : (allSections st)[i]? with
    | none => simp only [htgt]; rfl
    | some target =>
      simp only [htgt]
      cases p with
      | nil => rfl
      | cons e ps =>
        simp only []
        by_cases hq1 : qc < 1
        · rw [if_pos hq1]; rfl
        · rw [if_neg hq1]
          have hlt' : (((((e :: ps).flatMap exerciseToQuestionArray).filter
              fun q => !((allQuizItems st).contains q.item)).length : Int)) < qc := by
            unfold availableCount at hlt
            exact hlt
          have hcond : (((e :: ps).flatMap exerciseToQuestionArray).filter
              fun q => !((allQuizItems st).contains q.item)).length < qc.toNat := by
            omega
          have hsel : selectQuestions shuffle qc.toNat (e :: ps) (allQuizItems st) =
              .error (.jsError "Not enough questions to select from") := by
            unfold selectQuestions
            simp only []
            rw [if_pos hcond]
          rw [hsel]
          rfl
  · unfold addQuestionsToSectionFromResources
    cases htgt : (allSections st)[i]? with
    | none => simp only [htgt]; rfl
    | some target => simp only [htgt]; rfl
  · unfold addQuestionsToSectionFromResources
    cases htgt : (allSections st)[i]? with
    | none => simp only [htgt]; rfl
    | some target => simp only [htgt]; rfl
  · intro hq1
    unfold addQuestionsToSectionFromResources
    cases htgt : (allSections st)[i]? with
    | none => simp only [htgt]; rfl
    | some target =>
      simp only [htgt]
      cases p with
      | nil => rfl
      | cons e ps =>
        simp only []
        rw [if_pos hq1]
        rfl

/-- C4 witness: requesting 5 questions from a two-question pool throws; a
missing pool and a zero count throw a `TypeError`. -/
theorem c4_addFromResources_errors_witness :
    ((availableCount initState [exA] : Int) < 5) ∧
    ((addQuestionsToSectionFromResources (fun l => l) initState 0
        (some [exA]) 5).2).isSome = true ∧
    ((addQuestionsToSectionFromResources (fun l => l) initState 0
        none 5).2).any JsError.isTypeError = true ∧
    ((0 : Int) < 1) ∧
    ((addQuestionsToSectionFromResources (fun l => l) initState 0
        (some [exA]) 0).2).any JsError.isTypeError = true :=
  ⟨by decide,
   (c4_addFromResources_errors (fun l => l) initState 0 [exA] 5).1 (by decide),
   (c4_addFromResources_errors (fun l => l) initState 0 [exA] 5).2.1,
   by decide,
   (c4_addFromResources_errors (fun l => l) initState 0 [exA] 0).2.2.2 (by decide)⟩

/-- C5: when the quiz fails validation, `saveQuiz` rejects, issues no save
request and leaves the state (including `quizHasChanged`) unchanged; when
it is valid, the single request carries exactly the `fieldsToSave` fields
(plus, for drafts, the question sources stripped of `section_id` and of the
per-question `item` keys); the success handler installs the server id and
clears `quizHasChanged`. -/
theorem c5_saveQuiz_spec : ∀ (validQ : Quiz → Bool) (st : QState),
    (validQ st.quiz = false →
      saveQuiz validQ st = (st, .error "Quiz is not valid")) ∧
    (∀ r, (saveQuiz validQ st).2 = .ok r →
      validQ st.quiz = true ∧
      (saveQuiz validQ st).1 = st ∧
      r.id = st.quiz.id ∧
      r.data.title = st.quiz.title ∧
      r.data.assignments = st.quiz.assignments ∧
      r.data.learner_ids = st.quiz.learner_ids ∧
      r.data.collection = st.quiz.collection ∧
      r.data.learners_see_fixed_order = st.quiz.learners_see_fixed_order ∧
      r.data.instant_report_visibility = st.quiz.instant_report_visibility ∧
      r.data.draft = st.quiz.draft ∧
      r.data.active = st.quiz.active ∧
      r.data.archive = st.quiz.archive ∧
      (st.quiz.draft = true →
        r.data.question_sources = some ((allSections st).map stripSection)) ∧
      (st.quiz.draft = false → r.data.question_sources = none)) ∧
    (∀ examId, (saveQuizSuccess st examId).quizHasChanged = false ∧
      (saveQuizSuccess st examId).quiz = { st.quiz with id := examId }) := by
  intro validQ st
  refine ⟨?_, ?_, ?_⟩
  · intro hv
    unfold saveQuiz
    rw [hv]
    rfl
  · intro r hr
    by_cases hv : validQ st.quiz = true
    · unfold saveQuiz at hr
      rw [hv] at hr
      simp only [Bool.not_true, Bool.false_eq_true, if_false] at hr
      have hreq := Except.ok.inj hr
      subst hreq
      refine ⟨hv, saveQuiz_fst validQ st, rfl, rfl, rfl, rfl, rfl, rfl, rfl, rfl,
        rfl, rfl, ?_, ?_⟩
      · intro hd
        simp only [hd, if_true]
      · intro hd
        simp only [hd, Bool.false_eq_true, if_false]
    · have hv' : validQ st.quiz = false := by
        cases h : validQ st.quiz
        · rfl
        · exact absurd h hv
      unfold saveQuiz at hr
      rw [hv'] at hr
      simp only [Bool.not_false, if_true] at hr
      exact Except.noConfusion hr
  · intro examId
    constructor
    · unfold saveQuizSuccess
      rfl
    · unfold saveQuizSuccess
      simp only []
      split
      · rfl
      · rename_i hne
        have hid : st.quiz.id = examId := by
          by_contra hc
          exact hne hc
        rw [← hid]

/-- The request issued by a valid save of the freshly initialized quiz. -/
def c5req : SaveRequest :=
  { id := ""
    data :=
      { title := ""
        assignments := ["c"]
        learner_ids := []
        collection := "c"
        learners_see_fixed_order := false
        instant_report_visibility := true
        draft := true
        active := false
        archive := false
        question_sources := some [stripSection defaultSection] } }

/-- C5 witness: an always-failing validator rejects without touching the
state; an always-passing validator issues the expected request; the success
handler clears `quizHasChanged`. -/
theorem c5_saveQuiz_spec_witness :
    (saveQuiz (fun _ => false) initState = (initState, .error "Quiz is not valid")) ∧
    ((saveQuiz (fun _ => true) initState).2 = .ok c5req ∧
      (saveQuiz (fun _ => true) initState).1 = initState ∧
      c5req.data.question_sources = some ((allSections initState).map stripSection)) ∧
    (saveQuizSuccess initState "xyz").quizHasChanged = false :=
  ⟨(c5_saveQuiz_spec (fun _ => false) initState).1 rfl,
   by
    have hok : (saveQuiz (fun _ => true) initState).2 = .ok c5req := by rfl
    have h := (c5_saveQuiz_spec (fun _ => true) initState).2.1 c5req hok
    exact ⟨hok, h.2.1, h.2.2.2.2.2.2.2.2.2.2.2.2.1 rfl⟩,
   ((c5_saveQuiz_spec (fun _ => true) initState).2.2 "xyz").1⟩

theorem filterMap_id_map_some (l : List QuizQuestion) :
    (l.map some).filterMap id = l := by
  induction l with
  | nil => rfl
  | cons a l ih => simp [ih]

theorem contains_false_not_mem {l : List String} {a : String}
    (h : l.contains a = false) : a ∉ l := by
  intro hm
  have h2 : l.contains a = true := List.elem_iff.mpr hm
  rw [h] at h2
  exact Bool.noConfusion h2

theorem sections_insert_getElem_self {L : List QuizSection} {i : Nat}
    {m : QuizSection} (hi : i < L.length) :
    (L.take i ++ [m] ++ L.drop (i + 1))[i]? = some m := by
  rw [List.getElem?_append_left
      (by rw [List.length_append, List.length_take]; simp; omega),
    List.getElem?_append_right (by rw [List.length_take]; omega)]
  have hz : i - (L.take i).length = 0 := by rw [List.length_take]; omega
  rw [hz, List.getElem?_cons_zero]

theorem updateSection_mergeTarget {st : QState} {i : Nat} {u : SectionUpdates}
    {tgt : QuizSection} (htgt : (allSections st)[i]? = some tgt)
    (h2 : (updateSection st i u).2 = none) :
    (allSections (updateSection st i u).1)[i]? = some (mergeSection tgt u) := by
  obtain ⟨tgt2, htgt2, hc⟩ := updateSection_none_elim h2
  have e : tgt2 = tgt := Option.some.inj (htgt2.symm.trans htgt)
  subst e
  rw [updateSection_ok_eq htgt2 hc]
  obtain ⟨hi, -⟩ := List.getElem?_eq_some_iff.mp htgt2
  exact sections_insert_getElem_self hi

/-- The duplicate-items update used by the C1 counterexample. -/
def c1dupUpdates : SectionUpdates := { questions := some [some bq, some bq] }

/-- C1 counterexample: the state obtained by `initializeQuiz` followed by a
single (non-throwing) `updateSection` carrying the same question twice is
reachable, yet its question items are not unique. -/
theorem c1_counterexample :
    Reachable (updateSection initState 0 c1dupUpdates).1 ∧
    (updateSection initState 0 c1dupUpdates).2 = none ∧
    ¬ (allQuizItems (updateSection initState 0 c1dupUpdates).1).Nodup :=
  ⟨Reachable.update (Reachable.init blankState "c") 0 c1dupUpdates,
   by decide, by decide⟩

/-- C1 (amended): uniqueness of question items over the whole quiz is not
enforced by `updateSection` (see the counterexample); what holds is that a
non-throwing `addQuestionsToSectionFromResources` keeps the target section's
questions as a prefix and only appends questions whose items did not occur
anywhere in the quiz before the call. -/
theorem c1_fromResources_only_adds_unused :
    ∀ (shuffle : List QuizQuestion → List QuizQuestion),
    (∀ l, List.Perm (shuffle l) l) →
    ∀ (st : QState) (i : Nat) (pool : List Exercise) (qc : Int)
      (tgt : QuizSection),
    (allSections st)[i]? = some tgt →
    (addQuestionsToSectionFromResources shuffle st i (some pool) qc).2 = none →
    ∀ tgt',
      (allSections
        (addQuestionsToSectionFromResources shuffle st i (some pool) qc).1)[i]? =
        some tgt' →
    tgt'.questions.length ≥ tgt.questions.length ∧
    (∀ k, k < tgt.questions.length → tgt'.questions[k]? = tgt.questions[k]?) ∧
    (∀ k q, tgt'.questions[k]? = some q → tgt.questions.length ≤ k →
      q.item ∉ allQuizItems st) := by
  intro shuffle hperm st i pool qc tgt htgt h2 tgt' htgt'
  unfold addQuestionsToSectionFromResources at h2 htgt'
  simp only [htgt] at h2 htgt'
  cases pool with
  | nil => exact Option.noConfusion h2
  | cons e ps =>
    simp only [] at h2 htgt'
    by_cases hq1 : qc < 1
    · rw [if_pos hq1] at h2
      exact Option.noConfusion h2
    · rw [if_neg hq1] at h2 htgt'
      cases hsel : selectQuestions shuffle qc.toNat (e :: ps) (allQuizItems st) with
      | error err =>
        rw [hsel] at h2
        exact Option.noConfusion h2
      | ok newQs =>
        rw [hsel] at h2 htgt'
        have hqs : tgt'.questions = tgt.questions ++ newQs := by
          have h3 := Option.some.inj
            (htgt'.symm.trans (updateSection_mergeTarget htgt h2))
          rw [h3]
          simp [mergeSection, filterMap_id_map_some]
        have hnewmem : ∀ q ∈ newQs, q.item ∉ allQuizItems st := by
          intro q hq
          unfold selectQuestions at hsel
          simp only [] at hsel
          split at hsel
          · exact Except.noConfusion hsel
          · have htake := Except.ok.inj hsel
            rw [← htake] at hq
            have hsh : q ∈ shuffle (((e :: ps).flatMap exerciseToQuestionArray).filter
                fun x => !((allQuizItems st).contains x.item)) :=
              List.take_subset _ _ hq
            have hav := (hperm _).mem_iff.mp hsh
            have hfilt := (List.mem_filter.mp hav).2
            exact contains_false_not_mem (by
              cases hcontains : (allQuizItems st).contains q.item
              · rfl
              · rw [hcontains] at hfilt
                exact Bool.noConfusion hfilt)
        refine ⟨?_, ?_, ?_⟩
        · rw [hqs, List.length_append]
          omega
        · intro k hk
          rw [hqs, List.getElem?_append_left hk]
        · intro k q hkq hge
          rw [hqs, List.getElem?_append_right hge] at hkq
          exact hnewmem q (List.getElem?_mem hkq)

/-- The first question of exercise `A`. -/
def qA1 : QuizQuestion := { exercise_id := "A", question_id := "1", item := "A:1" }

/-- C1 witness: adding one question from a two-question pool to the fresh
quiz appends a question whose item was not in the quiz. -/
theorem c1_fromResources_only_adds_unused_witness :
    ((allSections initState)[0]? = some defaultSection) ∧
    ((addQuestionsToSectionFromResources (fun l => l) initState 0
        (some [exA]) 1).2 = none) ∧
    ((allSections (addQuestionsToSectionFromResources (fun l => l) initState 0
        (some [exA]) 1).1)[0]? =
      some { defaultSection with questions := [qA1] }) ∧
    (({ defaultSection with questions := [qA1] } : QuizSection).questions.length ≥
        defaultSection.questions.length ∧
      (∀ k, k < defaultSection.questions.length →
        ({ defaultSection with questions := [qA1] } : QuizSection).questions[k]? =
          defaultSection.questions[k]?) ∧
      (∀ k q,
        ({ defaultSection with questions := [qA1] } : QuizSection).questions[k]? =
          some q →
        defaultSection.questions.length ≤ k → q.item ∉ allQuizItems initState)) :=
  ⟨by decide, by decide, by decide,
   c1_fromResources_only_adds_unused (fun l => l) (fun l => List.Perm.refl l)
     initState 0 [exA] 1 defaultSection (by decide) (by decide)
     { defaultSection with questions := [qA1] } (by decide)⟩

theorem unusedMap_go_lookup (st : QState) :
    ∀ (entries : List (String × Option Exercise))
      (m : List (String × List String)),
    activeExercisesUnusedQuestionsMap.go st entries = .ok m →
    ∀ eid ex, (eid, some ex) ∈ entries →
    (∀ oe, (eid, oe) ∈ entries → oe = some ex) →
    m.lookup eid = some (unusedQuestionItems st ex) := by
  intro entries
  induction entries with
  | nil =>
    intro m hm eid ex hmem hfun
    simp at hmem
  | cons p rest ih =>
    intro m hm eid ex hmem hfun
    obtain ⟨pi, poe⟩ := p
    cases poe with
    | none =>
      simp only [activeExercisesUnusedQuestionsMap.go] at hm
      exact Except.noConfusion hm
    | some e =>
      simp only [activeExercisesUnusedQuestionsMap.go] at hm
      cases hrest : activeExercisesUnusedQuestionsMap.go st rest with
      | error e2 =>
        rw [hrest] at hm
        exact Except.noConfusion hm
      | ok m' =>
        rw [hrest] at hm
        have hm' : (pi, unusedQuestionItems st e) :: m' = m := Except.ok.inj hm
        subst hm'
        rw [List.lookup_cons]
        cases hbe : eid == pi with
        | true =>
          have hpie : eid = pi := eq_of_beq hbe
          subst hpie
          have hee : some e = some ex := hfun (some e) (List.mem_cons_self _ _)
          rw [Option.some.inj hee]
        | false =>
          have hrestmem : (eid, some ex) ∈ rest := by
            rcases List.mem_cons.mp hmem with hhd | htl
            · have : eid = pi := congrArg Prod.fst hhd
              rw [this] at hbe
              rw [BEq.refl] at hbe
              exact Bool.noConfusion hbe
            · exact htl
          exact ih m' hrest eid ex hrestmem
            (fun oe hoe => hfun oe (List.mem_cons_of_mem _ hoe))

/-- C8: for every exercise present (and cached) in the active resource map,
the unused-questions map entry is exactly the list of composite items
`exercise_id:assessment_item_id` built from the exercise's assessment item
ids, in their original order, with those composites removed that are the
item of some question already anywhere in the quiz. -/
theorem c8_unusedQuestionsMap_spec :
    ∀ (st : QState) (ai : Nat) (eid : String) (ex : Exercise)
      (m : List (String × List String)),
    (eid, some ex) ∈ activeResourceMap st ai →
    activeExercisesUnusedQuestionsMap st ai = .ok m →
    m.lookup eid =
      some ((ex.assessment_item_ids.map fun aid => ex.id ++ ":" ++ aid).filter
        fun qid => !((allQuestionsInQuiz st).any fun q => q.item == qid)) := by
  intro st ai eid ex m hmem hok
  have hlook : st.exerciseMap.lookup eid = some ex := by
    obtain ⟨i0, hi0, heq⟩ := List.mem_map.mp hmem
    have h1 : i0 = eid := congrArg Prod.fst heq
    have h2 : st.exerciseMap.lookup i0 = some ex := congrArg Prod.snd heq
    rw [← h1]
    exact h2
  have hfun : ∀ oe, (eid, oe) ∈ activeResourceMap st ai → oe = some ex := by
    intro oe hoe
    obtain ⟨i0, hi0, heq⟩ := List.mem_map.mp hoe
    have h1 : i0 = eid := congrArg Prod.fst heq
    have h2 : st.exerciseMap.lookup i0 = oe := congrArg Prod.snd heq
    rw [h1] at h2
    rw [← h2, hlook]
  have hl := unusedMap_go_lookup st (activeResourceMap st ai) m hok eid ex
    hmem hfun
  rw [hl]
  have hpt : ∀ qid, ((allQuizItems st).contains qid) =
      ((allQuestionsInQuiz st).any fun q => q.item == qid) := by
    intro qid
    cases h : (allQuizItems st).contains qid with
    | true =>
      have hm : qid ∈ allQuizItems st := List.elem_iff.mp h
      obtain ⟨q, hq, hqi⟩ := List.mem_map.mp hm
      exact (List.any_eq_true.mpr ⟨q, hq, by rw [beq_iff_eq]; exact hqi⟩).symm
    | false =>
      cases hany : (allQuestionsInQuiz st).any fun q => q.item == qid with
      | false => rfl
      | true =>
        obtain ⟨q, hq, hbe⟩ := List.any_eq_true.mp hany
        have hqm : qid ∈ allQuizItems st :=
          List.mem_map.mpr ⟨q, hq, eq_of_beq hbe⟩
        have hc2 : (allQuizItems st).contains qid = true := List.elem_iff.mpr hqm
        rw [h] at hc2
        exact Bool.noConfusion hc2
  unfold unusedQuestionItems
  simp only [hpt]

/-- A quiz state with one section holding one question of exercise `A`, with
exercise `A` cached. -/
def c8st : QState :=
  { quiz := { defaultQuiz "c" ["c"] with
      question_sources := [{ defaultSection with questions := [qA1] }] }
    quizHasChanged := false
    exerciseMap := [("A", exA)]
    selectedQuestionIds := [] }

/-- C8 witness: on `c8st` the active resource map holds exercise `A` and its
unused-questions entry is exactly the unused composite `A:2`. -/
theorem c8_unusedQuestionsMap_spec_witness :
    ((("A", some exA) : String × Option Exercise) ∈ activeResourceMap c8st 0) ∧
    (activeExercisesUnusedQuestionsMap c8st 0 = .ok [("A", ["A:2"])]) ∧
    (([("A", ["A:2"])] : List (String × List String)).lookup "A" =
      some ((exA.assessment_item_ids.map fun aid => exA.id ++ ":" ++ aid).filter
        fun qid => !((allQuestionsInQuiz c8st).any fun q => q.item == qid))) :=
  ⟨by decide, by rfl,
   c8_unusedQuestionsMap_spec c8st 0 "A" exA [("A", ["A:2"])] (by decide) (by rfl)⟩

/-- The first question of exercise `B`. -/
def qB1 : QuizQuestion := { exercise_id := "B", question_id := "1", item := "B:1" }

/-- Another two-question exercise. -/
def exB : Exercise := { id := "B", assessment_item_ids := ["1", "2"] }

/-- A state whose active section holds one question of exercise `A` followed
by one question of exercise `B`, both exercises cached and each having one
unused question (`A:2` and `B:2`). -/
def c6st : QState :=
  { quiz := { defaultQuiz "c" ["c"] with
      question_sources := [{ defaultSection with questions := [qA1, qB1] }] }
    quizHasChanged := false
    exerciseMap := [("A", exA), ("B", exB)]
    selectedQuestionIds := [] }

/-- C6: evaluation of `autoReplaceQuestions` at the failing input.  The
active section holds `A:1` (exercise `A`) and `B:1` (exercise `B`); each
exercise has exactly one unused question, so every shuffled pool is a
singleton and the outcome does not depend on the shuffle.  Replacing
`["B:1", "A:1"]` succeeds, but the position of the exercise-`A` question
receives the replacement drawn for the exercise-`B` question: replacements
are drawn in the listed order while `_replaceQuestions` consumes them in
section order. -/
theorem c6_autoReplace_cross_exercise :
    (autoReplaceQuestions (fun l => l) c6st 0 ["B:1", "A:1"]).2 = none ∧
    (activeQuestions c6st 0).map (fun q => (q.exercise_id, q.item)) =
      [("A", "A:1"), ("B", "B:1")] ∧
    (activeQuestions (autoReplaceQuestions (fun l => l) c6st 0
        ["B:1", "A:1"]).1 0).map (fun q => (q.exercise_id, q.item)) =
      [("B", "B:2"), ("A", "A:2")] :=
  ⟨by decide, by decide, by decide⟩

end QuizCreation
